import Mathlib

/-!
Shallow embedding of the IBM Cloud hibernation actuator
(`pkg/controller/hibernation/ibmcloud_actuator.go`) and the IBM Cloud client
(`pkg/ibmclient/client.go`).

Go slices, nil pointers and panics are modelled explicitly:
a `*string` field is `Option String` (`none` = nil pointer, dereferencing it
panics), a Go slice result that distinguishes nil from empty is `GoSlice`,
and a computation that may panic or return an `error` is a `GoResult`.
Provider SDK calls (network I/O) are oracles passed in as parameters.
-/

namespace Hive

/-- Outcome of a Go computation: a runtime panic (nil dereference), an
`error` return carrying its message, or a normal value. -/
inductive GoResult (α : Type) where
  | panic : GoResult α
  | err (msg : String) : GoResult α
  | ok (val : α) : GoResult α
deriving Repr, DecidableEq

/-- True exactly on the panic outcome. -/
def GoResult.isPanic {α : Type} : GoResult α → Bool
  | .panic => true
  | _ => false

/-- The fields of `vpcv1.Instance` the code reads: `Name`, `ID` and `Status`
are `*string` in the SDK, hence `Option String` here. -/
structure GoInstance where
  name : Option String
  id : Option String
  status : Option String
deriving Repr, DecidableEq

/-- A Go slice, keeping the nil / empty-but-non-nil distinction that the
actuator's observation results expose. -/
structure GoSlice (α : Type) where
  isNil : Bool
  elems : List α
deriving Repr, DecidableEq

/-- Dereference of `i.Name` done total under a non-nil assumption. -/
def nameOf (i : GoInstance) : String := i.name.getD ""

/-- Dereference of `i.ID` done total under a non-nil assumption. -/
def idOf (i : GoInstance) : String := i.id.getD ""

/-- Model of Go `strings.Contains` on lists of characters: does `sub` occur
as a contiguous run at the head of `hay`? -/
def matchesAt : List Char → List Char → Bool
  | [], _ => true
  | _ :: _, [] => false
  | c :: cs, h :: hs => c == h && matchesAt cs hs

/-- Model of Go `strings.Contains`: does `sub` occur contiguously anywhere
in `hay` (the empty pattern always occurs)? -/
def containsAux : List Char → List Char → Bool
  | [], sub => sub.isEmpty
  | h :: hs, sub => matchesAt sub (h :: hs) || containsAux hs sub

/-- `strings.Contains(s, sub)`. -/
def goContains (s sub : String) : Bool := containsAux s.toList sub.toList

/-- `ibmRunningStates = sets.NewString("running")` (ibmcloud_actuator.go). -/
def ibmRunningStates : List String := ["running"]

/-- `ibmStoppedStates = sets.NewString("stopped")`. -/
def ibmStoppedStates : List String := ["stopped"]

/-- `ibmPendingStates = sets.NewString("pending")`. -/
def ibmPendingStates : List String := ["pending"]

/-- `ibmStoppingStates = sets.NewString("stopping")`. -/
def ibmStoppingStates : List String := ["stopping"]

/-- `ibmRunningOrPendingStates = ibmRunningStates.Union(ibmPendingStates)`;
a `sets.String` union is membership-wise, modelled by list append. -/
def ibmRunningOrPendingStates : List String := ibmRunningStates ++ ibmPendingStates

/-- `ibmStoppedOrStoppingStates = ibmStoppedStates.Union(ibmStoppingStates)`. -/
def ibmStoppedOrStoppingStates : List String := ibmStoppedStates ++ ibmStoppingStates

/-- `ibmNotRunningStates = ibmStoppedOrStoppingStates.Union(ibmPendingStates)`. -/
def ibmNotRunningStates : List String := ibmStoppedOrStoppingStates ++ ibmPendingStates

/-- `ibmNotStoppedStates = ibmRunningOrPendingStates.Union(ibmStoppingStates)`. -/
def ibmNotStoppedStates : List String := ibmRunningOrPendingStates ++ ibmStoppingStates

/-- Modelled from the spec: the hibernation package's `runningOrPendingStates`
set, which the actuator's `StopMachines` filters on, is declared in another
file of the `hibernation` package that is not part of the given sources; the
spec defines `RunningOrPending = {Running, Pending}`. -/
def runningOrPendingStates : List String := ["running", "pending"]

/-- Modelled from the spec: the package-level `stoppedOrStoppingStates` set
used by `StartMachines`; the spec defines `StoppedOrStopping = {Stopped,
Stopping}`. -/
def stoppedOrStoppingStates : List String := ["stopped", "stopping"]

/-- Modelled from the spec: the package-level `notRunningStates` set used by
`MachinesRunning`; the spec defines `NotRunning = StoppedOrStopping ∪
{Pending}`. -/
def notRunningStates : List String := stoppedOrStoppingStates ++ ["pending"]

/-- Modelled from the spec: the package-level `notStoppedStates` set used by
`MachinesStopped`; the spec defines `NotStopped = RunningOrPending ∪
{Stopping}`. -/
def notStoppedStates : List String := runningOrPendingStates ++ ["stopping"]

/-- `states.Has(*i.Status)` as a total predicate, used in theorem statements
about instances already known to carry a non-nil status; a nil status never
satisfies it. -/
def statusHas (states : List String) (i : GoInstance) : Bool :=
  match i.status with
  | some s => states.contains s
  | none => false

/-- The filtering loop of `GetVPCInstances`: keep the instances whose
dereferenced `*instance.Name` contains `infraID`; a nil name panics. -/
def filterByName (infraID : String) : List GoInstance → GoResult (List GoInstance)
  | [] => .ok []
  | i :: rest =>
    match i.name with
    | none => .panic
    | some n =>
      match filterByName infraID rest with
      | .panic => .panic
      | .err e => .err e
      | .ok tail => .ok (if goContains n infraID then i :: tail else tail)

/-- `Client.GetVPCInstances(ctx, infraID)`: `listResult` is the oracle for
`c.vpcAPI.ListInstances(options)` (note: the call takes no context and no
timeout is installed); an error is wrapped, a success is filtered by name. -/
def GetVPCInstances (listResult : GoResult (List GoInstance)) (infraID : String) :
    GoResult (List GoInstance) :=
  match listResult with
  | .panic => .panic
  | .err e => .err ("failed to list vpc instances: " ++ e)
  | .ok result => filterByName infraID result

/-- The filtering loop of `getIBMCloudClusterInstances`: keep the instances
whose dereferenced `*i.Status` is in `states`; a nil status panics. -/
def filterByStatus (states : List String) : List GoInstance → GoResult (List GoInstance)
  | [] => .ok []
  | i :: rest =>
    match i.status with
    | none => .panic
    | some s =>
      match filterByStatus states rest with
      | .panic => .panic
      | .err e => .err e
      | .ok tail => .ok (if states.contains s then i :: tail else tail)

/-- Provider oracles for one actuator invocation: the raw result of
`c.vpcAPI.ListInstances`, and `CreateInstanceAction` keyed by action type
("stop"/"start") and instance ID (`none` = the action call succeeded,
`some e` = it failed with error message `e`). -/
structure IBMCloudEnv where
  listInstances : GoResult (List GoInstance)
  instanceAction : String → String → Option String

/-- `getIBMCloudClusterInstances(cd, c, states, logger)`: list the cluster
instances through `GetVPCInstances`, propagate its error, else keep those
whose status is in `states`. -/
def getIBMCloudClusterInstances (env : IBMCloudEnv) (infraID : String)
    (states : List String) : GoResult (List GoInstance) :=
  match GetVPCInstances env.listInstances infraID with
  | .panic => .panic
  | .err e => .err e
  | .ok instances => filterByStatus states instances

/-- `Client.StopInstances(instances)`: for each instance in order, invoke
`CreateInstanceAction` (type "stop") on its dereferenced `*instance.ID`;
on the first failure return the wrapped error, skipping the rest. The first
component records the IDs the action was actually invoked for. -/
def StopInstances (act : String → Option String) :
    List GoInstance → List String × GoResult Unit
  | [] => ([], .ok ())
  | i :: rest =>
    match i.id with
    | none => ([], .panic)
    | some iid =>
      match act iid with
      | some e => ([iid], .err ("failed to create stop instance action: " ++ e))
      | none =>
        let r := StopInstances act rest
        (iid :: r.1, r.2)

/-- `Client.StartInstances(instances)`: as `StopInstances` but with the
"start" action, and the failure wrap dereferences `*instance.Name` to name
the failing instance (`errors.Wrapf(err, "... for instance %q", ...)`). -/
def StartInstances (act : String → Option String) :
    List GoInstance → List String × GoResult Unit
  | [] => ([], .ok ())
  | i :: rest =>
    match i.id with
    | none => ([], .panic)
    | some iid =>
      match act iid with
      | some e =>
        match i.name with
        | none => ([iid], .panic)
        | some n =>
          ([iid], .err ("failed to create start instance action for instance \""
            ++ n ++ "\": " ++ e))
      | none =>
        let r := StartInstances act rest
        (iid :: r.1, r.2)

/-- The loop of `ibmCloudInstanceNames`: dereference `*instance.Name` for
each instance in order (`none` = a nil name panicked). -/
def instanceNames : List GoInstance → Option (List String)
  | [] => some []
  | i :: rest =>
    match i.name, instanceNames rest with
    | some n, some tail => some (n :: tail)
    | _, _ => none

/-- `ibmCloudInstanceNames(instances)`: `make([]string, len(instances))`
filled with the dereferenced names — always a non-nil slice. -/
def ibmCloudInstanceNames (instances : List GoInstance) : Option (GoSlice String) :=
  (instanceNames instances).map (fun l => ⟨false, l⟩)

/-- `StopMachines(cd, hiveClient, logger)`: `clientErr` models a failure of
`ibmCloudClientFn` (`none` = a client was built). Returns the IDs stop
actions were invoked for together with the Go outcome. -/
def StopMachines (clientErr : Option String) (env : IBMCloudEnv) (infraID : String) :
    List String × GoResult Unit :=
  match clientErr with
  | some e => ([], .err e)
  | none =>
    match getIBMCloudClusterInstances env infraID runningOrPendingStates with
    | .panic => ([], .panic)
    | .err e => ([], .err e)
    | .ok instances =>
      if instances.length == 0 then ([], .ok ())
      else StopInstances (env.instanceAction "stop") instances

/-- `StartMachines(cd, hiveClient, logger)`: symmetric to `StopMachines`,
filtering on `stoppedOrStoppingStates` and invoking `StartInstances`. -/
def StartMachines (clientErr : Option String) (env : IBMCloudEnv) (infraID : String) :
    List String × GoResult Unit :=
  match clientErr with
  | some e => ([], .err e)
  | none =>
    match getIBMCloudClusterInstances env infraID stoppedOrStoppingStates with
    | .panic => ([], .panic)
    | .err e => ([], .err e)
    | .ok instances =>
      if instances.length == 0 then ([], .ok ())
      else StartInstances (env.instanceAction "start") instances

/-- The `(bool, []string, error)` triple returned by `MachinesRunning` and
`MachinesStopped`. -/
structure MachinesResult where
  flag : Bool
  stragglers : GoSlice String
  errMsg : Option String
deriving Repr, DecidableEq

/-- `MachinesRunning(cd, hiveClient, logger)`: filter on `notRunningStates`;
`(len(instances) == 0, ibmCloudInstanceNames(instances), nil)` on success,
`(false, nil, err)` on error. -/
def MachinesRunning (clientErr : Option String) (env : IBMCloudEnv) (infraID : String) :
    GoResult MachinesResult :=
  match clientErr with
  | some e => .ok ⟨false, ⟨true, []⟩, some e⟩
  | none =>
    match getIBMCloudClusterInstances env infraID notRunningStates with
    | .panic => .panic
    | .err e => .ok ⟨false, ⟨true, []⟩, some e⟩
    | .ok instances =>
      match ibmCloudInstanceNames instances with
      | none => .panic
      | some names => .ok ⟨instances.length == 0, names, none⟩

/-- `MachinesStopped(cd, hiveClient, logger)`: symmetric to
`MachinesRunning`, filtering on `notStoppedStates`. -/
def MachinesStopped (clientErr : Option String) (env : IBMCloudEnv) (infraID : String) :
    GoResult MachinesResult :=
  match clientErr with
  | some e => .ok ⟨false, ⟨true, []⟩, some e⟩
  | none =>
    match getIBMCloudClusterInstances env infraID notStoppedStates with
    | .panic => .panic
    | .err e => .ok ⟨false, ⟨true, []⟩, some e⟩
    | .ok instances =>
      match ibmCloudInstanceNames instances with
      | none => .panic
      | some names => .ok ⟨instances.length == 0, names, none⟩

/-- The client's typed errors: `*VPCResourceNotFoundError` (whose message is
the fixed string "Not Found") versus any other provider error. -/
inductive ClientError where
  | vpcNotFound : ClientError
  | providerError (msg : String) : ClientError
deriving Repr, DecidableEq

/-- One SDK call's observable outcome: the `DetailedResponse` status code,
the returned value (nil = absent) and the returned `error` message. -/
structure VPCCallResponse where
  statusCode : Nat
  value : Option String
  errMsg : Option String
deriving Repr, DecidableEq

/-- `Client.GetSubnet(ctx, subnetID)`: `resp` is the oracle for
`c.vpcAPI.GetSubnet`. If the detailed response's status code is 404 return
the typed `*VPCResourceNotFoundError`, otherwise pass the subnet and the
SDK error through. (The `context.WithTimeout` result is discarded by the
code and the non-context SDK call is used, so no context appears here.) -/
def GetSubnet (resp : VPCCallResponse) : Option String × Option ClientError :=
  if resp.statusCode == 404 then (none, some .vpcNotFound)
  else (resp.value, resp.errMsg.map .providerError)

/-- One region iteration of `GetVPC`: the outcome of
`c.vpcAPI.SetServiceURL` for the region's endpoint, and the oracle for
`c.vpcAPI.GetVPC` against that region. -/
structure RegionLookup where
  setURLErr : Option String
  resp : VPCCallResponse
deriving Repr, DecidableEq

/-- The region loop of `GetVPC`: per region, a `SetServiceURL` failure is
wrapped and returned; a lookup error with status ≠ 404 is returned as-is; a
404 error falls through to the next region; a non-nil VPC is returned; a
nil VPC with nil error also falls through. An exhausted loop yields the
typed `*VPCResourceNotFoundError`. -/
def getVPCLoop : List RegionLookup → Option String × Option ClientError
  | [] => (none, some .vpcNotFound)
  | r :: rest =>
    match r.setURLErr with
    | some e => (none, some (.providerError ("failed to set vpc api service url: " ++ e)))
    | none =>
      match r.resp.errMsg with
      | some e =>
        if r.resp.statusCode ≠ 404 then (none, some (.providerError e))
        else getVPCLoop rest
      | none =>
        match r.resp.value with
        | some v => (some v, none)
        | none => getVPCLoop rest

/-- `Client.GetVPC(ctx, vpcID)`: `regionsResult` is the oracle for
`c.getVPCRegions` (whose error the code wraps), each listed region carrying
its lookup outcome for the given VPC ID. -/
def GetVPC (regionsResult : Except String (List RegionLookup)) :
    Option String × Option ClientError :=
  match regionsResult with
  | .error e => (none, some (.providerError ("failed to list vpc regions: " ++ e)))
  | .ok regions => getVPCLoop regions

/-- The caller-supplied `context.Context`, reduced to the one observable the
claims are about: whether it is already cancelled / past its deadline. -/
structure GoContext where
  cancelled : Bool
deriving Repr, DecidableEq

/-- `context.WithTimeout(ctx, 1*time.Minute)`: yields the derived context.
Every call site in client.go binds this result to the blank identifier `_`,
keeping only the `cancel` function for its `defer`. -/
def contextWithTimeout (ctx : GoContext) (_millis : Nat) : GoContext := ctx

/-- `Client.GetCISInstance(ctx, crnstr)`: the context derived by
`context.WithTimeout` is discarded (bound to `_` in the source), and the
SDK call `c.controllerAPI.GetResourceInstance(options)` — modelled by the
oracle `getResourceInstance`, which takes no context — is issued
regardless of `ctx`; its error is wrapped. -/
def GetCISInstance (ctx : GoContext) (getResourceInstance : Except String String) :
    Except String String :=
  let _ := contextWithTimeout ctx 60000
  match getResourceInstance with
  | .error e => .error ("failed to get cis instances: " ++ e)
  | .ok inst => .ok inst

theorem filterByStatus_ok (states : List String) (l : List GoInstance)
    (h : ∀ i ∈ l, i.status.isSome = true) :
    filterByStatus states l = .ok (l.filter (statusHas states)) := by
  induction l with
  | nil => rfl
  | cons i rest ih =>
    obtain ⟨s, hs⟩ := Option.isSome_iff_exists.mp (h i (List.mem_cons_self i rest))
    have hrest := ih (fun j hj => h j (List.mem_cons_of_mem i hj))
    simp only [filterByStatus, hs, hrest, List.filter_cons, statusHas]

theorem filterByName_ok (infraID : String) (l : List GoInstance)
    (h : ∀ i ∈ l, i.name.isSome = true) :
    filterByName infraID l = .ok (l.filter (fun i => goContains (nameOf i) infraID)) := by
  induction l with
  | nil => rfl
  | cons i rest ih =>
    obtain ⟨n, hn⟩ := Option.isSome_iff_exists.mp (h i (List.mem_cons_self i rest))
    have hrest := ih (fun j hj => h j (List.mem_cons_of_mem i hj))
    simp only [filterByName, hn, hrest, List.filter_cons, nameOf, Option.getD_some]

theorem instanceNames_ok (l : List GoInstance)
    (h : ∀ i ∈ l, i.name.isSome = true) :
    instanceNames l = some (l.map nameOf) := by
  induction l with
  | nil => rfl
  | cons i rest ih =>
    obtain ⟨n, hn⟩ := Option.isSome_iff_exists.mp (h i (List.mem_cons_self i rest))
    have hrest := ih (fun j hj => h j (List.mem_cons_of_mem i hj))
    simp [instanceNames, hn, hrest, nameOf]

theorem getIBMCloudClusterInstances_ok (env : IBMCloudEnv) (infraID : String)
    (states : List String) (l : List GoInstance)
    (hl : GetVPCInstances env.listInstances infraID = .ok l)
    (hs : ∀ i ∈ l, i.status.isSome = true) :
    getIBMCloudClusterInstances env infraID states = .ok (l.filter (statusHas states)) := by
  simp only [getIBMCloudClusterInstances, hl, filterByStatus_ok states l hs]

/-- C1: for every cluster deployment whose instances list successfully,
`StopMachines` filters the listed instances to those whose status is in the
running-or-pending predicate set; when that subset is empty (in particular
when every instance is already stopped) it returns success having invoked no
stop action, and otherwise it invokes `StopInstances` on exactly the
filtered subset, returning that call's error if it fails. -/
theorem stopMachines_filters_runningOrPending (env : IBMCloudEnv) (infraID : String)
    (l : List GoInstance)
    (hl : GetVPCInstances env.listInstances infraID = .ok l)
    (hs : ∀ i ∈ l, i.status.isSome = true) :
    (l.filter (statusHas runningOrPendingStates) = [] →
      StopMachines none env infraID = ([], .ok ())) ∧
    (l.filter (statusHas runningOrPendingStates) ≠ [] →
      StopMachines none env infraID =
        StopInstances (env.instanceAction "stop")
          (l.filter (statusHas runningOrPendingStates))) ∧
    ((∀ i ∈ l, i.status = some "stopped") →
      StopMachines none env infraID = ([], .ok ())) ∧
    (∀ e, (StopInstances (env.instanceAction "stop")
        (l.filter (statusHas runningOrPendingStates))).2 = .err e →
      l.filter (statusHas runningOrPendingStates) ≠ [] →
      (StopMachines none env infraID).2 = .err e) := by
  have hget := getIBMCloudClusterInstances_ok env infraID runningOrPendingStates l hl hs
  have hempty : l.filter (statusHas runningOrPendingStates) = [] →
      StopMachines none env infraID = ([], .ok ()) := by
    intro hnil
    simp only [StopMachines, hget, hnil]
    rfl
  have hcall : l.filter (statusHas runningOrPendingStates) ≠ [] →
      StopMachines none env infraID =
        StopInstances (env.instanceAction "stop")
          (l.filter (statusHas runningOrPendingStates)) := by
    intro hne
    obtain ⟨j, js, hF⟩ := List.exists_cons_of_ne_nil hne
    simp only [StopMachines, hget, hF]
    rfl
  have hstopnil : (∀ i ∈ l, i.status = some "stopped") →
      l.filter (statusHas runningOrPendingStates) = [] := by
    intro hst
    refine List.filter_eq_nil_iff.mpr (fun i hi => ?_)
    simp [statusHas, hst i hi, runningOrPendingStates, ibmRunningStates]
  exact ⟨hempty, hcall, fun hst => hempty (hstopnil hst),
    fun e he hne => by rw [hcall hne, he]⟩

/-- Concrete instance "hive-a"/running used by the C1 witness. -/
def c1InstA : GoInstance := ⟨some "hive-a", some "id-a", some "running"⟩

/-- Concrete instance "hive-b"/stopped used by the C1 witness. -/
def c1InstB : GoInstance := ⟨some "hive-b", some "id-b", some "stopped"⟩

/-- Concrete environment for the C1 witness: two listed instances, all
provider actions succeed. -/
def c1Env : IBMCloudEnv := ⟨.ok [c1InstA, c1InstB], fun _ _ => none⟩

/-- C1 witness: with one running and one stopped instance, `StopMachines`
reduces to `StopInstances` on exactly the running-or-pending subset. -/
theorem stopMachines_filters_runningOrPending_witness :
    StopMachines none c1Env "hive" =
      StopInstances (c1Env.instanceAction "stop")
        ([c1InstA, c1InstB].filter (statusHas runningOrPendingStates)) :=
  ((stopMachines_filters_runningOrPending c1Env "hive" [c1InstA, c1InstB]
      (by decide) (by decide)).2.1) (by decide)

theorem MachinesRunning_ok (env : IBMCloudEnv) (infraID : String) (l : List GoInstance)
    (hl : GetVPCInstances env.listInstances infraID = .ok l)
    (hs : ∀ i ∈ l, i.status.isSome = true)
    (hn : ∀ i ∈ l, i.name.isSome = true) :
    MachinesRunning none env infraID =
      .ok ⟨(l.filter (statusHas notRunningStates)).length == 0,
           ⟨false, (l.filter (statusHas notRunningStates)).map nameOf⟩, none⟩ := by
  have hget := getIBMCloudClusterInstances_ok env infraID notRunningStates l hl hs
  have hnames : instanceNames (l.filter (statusHas notRunningStates)) =
      some ((l.filter (statusHas notRunningStates)).map nameOf) :=
    instanceNames_ok _ (fun i hi => hn i (List.mem_of_mem_filter hi))
  simp only [MachinesRunning, hget, ibmCloudInstanceNames, hnames, Option.map_some']

theorem MachinesStopped_ok (env : IBMCloudEnv) (infraID : String) (l : List GoInstance)
    (hl : GetVPCInstances env.listInstances infraID = .ok l)
    (hs : ∀ i ∈ l, i.status.isSome = true)
    (hn : ∀ i ∈ l, i.name.isSome = true) :
    MachinesStopped none env infraID =
      .ok ⟨(l.filter (statusHas notStoppedStates)).length == 0,
           ⟨false, (l.filter (statusHas notStoppedStates)).map nameOf⟩, none⟩ := by
  have hget := getIBMCloudClusterInstances_ok env infraID notStoppedStates l hl hs
  have hnames : instanceNames (l.filter (statusHas notStoppedStates)) =
      some ((l.filter (statusHas notStoppedStates)).map nameOf) :=
    instanceNames_ok _ (fun i hi => hn i (List.mem_of_mem_filter hi))
  simp only [MachinesStopped, hget, ibmCloudInstanceNames, hnames, Option.map_some']

/-- Environment for C2's scenario B: a single instance named "a" whose
status is "stopping". -/
def c2EnvB : IBMCloudEnv := ⟨.ok [⟨some "a", some "id-a", some "stopping"⟩], fun _ _ => none⟩

/-- C2: for every cluster deployment whose instance list is retrieved
without error, `MachinesRunning` returns `allRunning` true iff no listed
instance has a status in the not-running predicate set, with the names of
exactly the filtered instances, in provider order, as stragglers;
`MachinesStopped` is symmetric over the not-stopped set; and on a single
instance named "a" with status "stopping", `MachinesStopped` returns
`(false, ["a"], nil)`. -/
theorem machinesRunning_stopped_stragglers (env : IBMCloudEnv) (infraID : String)
    (l : List GoInstance)
    (hl : GetVPCInstances env.listInstances infraID = .ok l)
    (hs : ∀ i ∈ l, i.status.isSome = true)
    (hn : ∀ i ∈ l, i.name.isSome = true) :
    (MachinesRunning none env infraID =
      .ok ⟨(l.filter (statusHas notRunningStates)).length == 0,
           ⟨false, (l.filter (statusHas notRunningStates)).map nameOf⟩, none⟩) ∧
    (∀ r, MachinesRunning none env infraID = .ok r →
      (r.flag = true ↔ ∀ i ∈ l, statusHas notRunningStates i = false)) ∧
    (MachinesStopped none env infraID =
      .ok ⟨(l.filter (statusHas notStoppedStates)).length == 0,
           ⟨false, (l.filter (statusHas notStoppedStates)).map nameOf⟩, none⟩) ∧
    (MachinesStopped none c2EnvB "a" = .ok ⟨false, ⟨false, ["a"]⟩, none⟩) := by
  have hrun := MachinesRunning_ok env infraID l hl hs hn
  have hstop := MachinesStopped_ok env infraID l hl hs hn
  refine ⟨hrun, ?_, hstop, by decide⟩
  intro r hr
  rw [hrun] at hr
  obtain rfl : _ = r := GoResult.ok.inj hr
  simp only [beq_iff_eq, List.length_eq_zero, List.filter_eq_nil_iff,
    Bool.not_eq_true]

/-- C2 witness: scenario B's environment satisfies the hypotheses, and the
theorem applied there yields the stopping instance as the one straggler. -/
theorem machinesRunning_stopped_stragglers_witness :
    MachinesStopped none c2EnvB "a" = .ok ⟨false, ⟨false, ["a"]⟩, none⟩ :=
  (machinesRunning_stopped_stragglers c2EnvB "a"
      [⟨some "a", some "id-a", some "stopping"⟩]
      (by decide) (by decide) (by decide)).2.2.2

/-- C3: the four derived predicate sets satisfy the spec's algebraic
equations over the canonical states — running-or-pending is {running,
pending}, stopped-or-stopping is {stopped, stopping}, not-running is
stopped-or-stopping ∪ {pending}, not-stopped is running-or-pending ∪
{stopping}, each a union of the base sets — and the sets the four actuator
operations filter on agree membership-wise with these derived sets. -/
theorem predicate_sets_algebra :
    (∀ s, s ∈ ibmRunningOrPendingStates ↔ (s = "running" ∨ s = "pending")) ∧
    (∀ s, s ∈ ibmStoppedOrStoppingStates ↔ (s = "stopped" ∨ s = "stopping")) ∧
    (∀ s, s ∈ ibmNotRunningStates ↔
      (s ∈ ibmStoppedOrStoppingStates ∨ s ∈ ibmPendingStates)) ∧
    (∀ s, s ∈ ibmNotStoppedStates ↔
      (s ∈ ibmRunningOrPendingStates ∨ s ∈ ibmStoppingStates)) ∧
    (∀ s, s ∈ runningOrPendingStates ↔ s ∈ ibmRunningOrPendingStates) ∧
    (∀ s, s ∈ stoppedOrStoppingStates ↔ s ∈ ibmStoppedOrStoppingStates) ∧
    (∀ s, s ∈ notRunningStates ↔ s ∈ ibmNotRunningStates) ∧
    (∀ s, s ∈ notStoppedStates ↔ s ∈ ibmNotStoppedStates) := by
  refine ⟨?_, ?_, ?_, ?_, ?_, ?_, ?_, ?_⟩ <;> intro s <;>
    simp [ibmRunningOrPendingStates, ibmStoppedOrStoppingStates,
      ibmNotRunningStates, ibmNotStoppedStates, ibmRunningStates,
      ibmStoppedStates, ibmPendingStates, ibmStoppingStates,
      runningOrPendingStates, stoppedOrStoppingStates, notRunningStates,
      notStoppedStates, or_assoc, or_comm, or_left_comm]

/-- C6: `StartMachines` mirrors `StopMachines` with the
stopped-or-stopping predicate set — success with no start action when the
filtered subset is empty, `StartInstances` on exactly that subset otherwise
— and on an empty instance list all four operations report vacuous
convergence: both mutating operations return success having issued no
action, and both observations return `(true, [], nil)` with an empty
non-nil straggler slice. -/
theorem startMachines_and_empty_list (env : IBMCloudEnv) (infraID : String)
    (l : List GoInstance)
    (hl : GetVPCInstances env.listInstances infraID = .ok l)
    (hs : ∀ i ∈ l, i.status.isSome = true) :
    (l.filter (statusHas stoppedOrStoppingStates) = [] →
      StartMachines none env infraID = ([], .ok ())) ∧
    (l.filter (statusHas stoppedOrStoppingStates) ≠ [] →
      StartMachines none env infraID =
        StartInstances (env.instanceAction "start")
          (l.filter (statusHas stoppedOrStoppingStates))) ∧
    (l = [] →
      StopMachines none env infraID = ([], .ok ()) ∧
      StartMachines none env infraID = ([], .ok ()) ∧
      MachinesRunning none env infraID = .ok ⟨true, ⟨false, []⟩, none⟩ ∧
      MachinesStopped none env infraID = .ok ⟨true, ⟨false, []⟩, none⟩) := by
  have hget := getIBMCloudClusterInstances_ok env infraID stoppedOrStoppingStates l hl hs
  have hempty : l.filter (statusHas stoppedOrStoppingStates) = [] →
      StartMachines none env infraID = ([], .ok ()) := by
    intro hnil
    simp only [StartMachines, hget, hnil]
    rfl
  have hcall : l.filter (statusHas stoppedOrStoppingStates) ≠ [] →
      StartMachines none env infraID =
        StartInstances (env.instanceAction "start")
          (l.filter (statusHas stoppedOrStoppingStates)) := by
    intro hne
    obtain ⟨j, js, hF⟩ := List.exists_cons_of_ne_nil hne
    simp only [StartMachines, hget, hF]
    rfl
  refine ⟨hempty, hcall, ?_⟩
  rintro rfl
  have hget2 := getIBMCloudClusterInstances_ok env infraID runningOrPendingStates [] hl hs
  refine ⟨?_, hempty rfl, ?_, ?_⟩
  · simp only [StopMachines, hget2]
    rfl
  · have h := MachinesRunning_ok env infraID [] hl hs (by simp)
    simpa using h
  · have h := MachinesStopped_ok env infraID [] hl hs (by simp)
    simpa using h

/-- Environment for the C6 witness: no instances listed at all. -/
def c6Env : IBMCloudEnv := ⟨.ok [], fun _ _ => none⟩

/-- C6 witness: on the empty instance list, `MachinesStopped` reports
vacuous convergence with an empty non-nil straggler slice. -/
theorem startMachines_and_empty_list_witness :
    MachinesStopped none c6Env "x" = .ok ⟨true, ⟨false, []⟩, none⟩ :=
  ((startMachines_and_empty_list c6Env "x" [] (by decide) (by decide)).2.2 rfl).2.2.2

/-- C7: `GetVPCInstances` returns only instances belonging to the cluster:
its result is exactly the provider's list filtered by the substring test,
every returned instance's name contains the infrastructure ID, and no
listed instance whose name does not contain it is returned. -/
theorem getVPCInstances_cluster_scoped (raw : List GoInstance) (infraID : String)
    (res : List GoInstance)
    (hn : ∀ i ∈ raw, i.name.isSome = true)
    (hres : GetVPCInstances (.ok raw) infraID = .ok res) :
    res = raw.filter (fun i => goContains (nameOf i) infraID) ∧
    (∀ i ∈ res, goContains (nameOf i) infraID = true) ∧
    (∀ i ∈ raw, goContains (nameOf i) infraID = false → i ∉ res) := by
  have h : GetVPCInstances (.ok raw) infraID =
      .ok (raw.filter (fun i => goContains (nameOf i) infraID)) := by
    simp only [GetVPCInstances, filterByName_ok infraID raw hn]
  rw [h] at hres
  obtain rfl : _ = res := GoResult.ok.inj hres
  refine ⟨rfl, ?_, ?_⟩
  · intro i hi
    exact (List.mem_filter.mp hi).2
  · intro i _ hfalse hmem
    have htrue := (List.mem_filter.mp hmem).2
    rw [hfalse] at htrue
    exact Bool.false_ne_true htrue

/-- Provider list for the C7 witness: one instance of the cluster "abc",
one instance of an unrelated cluster. -/
def c7Raw : List GoInstance :=
  [⟨some "abc-worker-1", some "id-1", some "running"⟩,
   ⟨some "xyz-worker-9", some "id-9", some "running"⟩]

/-- C7 witness: on the concrete provider list, `GetVPCInstances` keeps
exactly the instance whose name contains "abc". -/
theorem getVPCInstances_cluster_scoped_witness :
    [GoInstance.mk (some "abc-worker-1") (some "id-1") (some "running")] =
      c7Raw.filter (fun i => goContains (nameOf i) "abc") :=
  (getVPCInstances_cluster_scoped c7Raw "abc"
      [⟨some "abc-worker-1", some "id-1", some "running"⟩]
      (by decide) (by decide)).1

/-- Environment for the C4 counterexample: a single cluster instance named
"a" whose raw status "weird" is not a recognized state. -/
def c4Env : IBMCloudEnv := ⟨.ok [⟨some "a", some "id-a", some "weird"⟩], fun _ _ => none⟩

/-- C4 counterexample: with a single unrecognized-status instance "a",
`MachinesRunning` and `MachinesStopped` both return `(true, [], nil)` — the
instance appears in neither straggler list and both observations report
convergence, so it is silently ignored, not surfaced. -/
theorem unknown_status_not_surfaced :
    MachinesRunning none c4Env "a" = .ok ⟨true, ⟨false, []⟩, none⟩ ∧
    MachinesStopped none c4Env "a" = .ok ⟨true, ⟨false, []⟩, none⟩ := by decide

/-- C4 (amended): an instance whose raw status is not one of the recognized
states is excluded from the subsets `StopMachines` and `StartMachines` act
on, and it is also excluded from the straggler computations of
`MachinesRunning` and `MachinesStopped` — it is silently ignored: the
straggler lists name only the instances in the respective filtered sets,
which never include it, and if every other instance is running the
`MachinesRunning` flag is true despite its presence. -/
theorem unknown_status_silently_excluded (env : IBMCloudEnv) (infraID : String)
    (l : List GoInstance) (i : GoInstance) (s : String)
    (hl : GetVPCInstances env.listInstances infraID = .ok l)
    (hs : ∀ j ∈ l, j.status.isSome = true)
    (hn : ∀ j ∈ l, j.name.isSome = true)
    (hi : i ∈ l) (hst : i.status = some s)
    (hu : s ∉ ibmRunningStates ∧ s ∉ ibmPendingStates ∧
      s ∉ ibmStoppingStates ∧ s ∉ ibmStoppedStates) :
    statusHas runningOrPendingStates i = false ∧
    statusHas stoppedOrStoppingStates i = false ∧
    statusHas notRunningStates i = false ∧
    statusHas notStoppedStates i = false ∧
    i ∉ l.filter (statusHas runningOrPendingStates) ∧
    i ∉ l.filter (statusHas stoppedOrStoppingStates) ∧
    i ∉ l.filter (statusHas notRunningStates) ∧
    i ∉ l.filter (statusHas notStoppedStates) ∧
    MachinesRunning none env infraID =
      .ok ⟨(l.filter (statusHas notRunningStates)).length == 0,
           ⟨false, (l.filter (statusHas notRunningStates)).map nameOf⟩, none⟩ ∧
    ((∀ j ∈ l, j ≠ i → statusHas notRunningStates j = false) →
      MachinesRunning none env infraID = .ok ⟨true, ⟨false, []⟩, none⟩) := by
  obtain ⟨hur, hup, hug, hus⟩ := hu
  simp only [ibmRunningStates, ibmPendingStates, ibmStoppingStates, ibmStoppedStates,
    List.mem_singleton] at hur hup hug hus
  have h1 : statusHas runningOrPendingStates i = false := by
    simp [statusHas, hst, runningOrPendingStates, hur, hup]
  have h2 : statusHas stoppedOrStoppingStates i = false := by
    simp [statusHas, hst, stoppedOrStoppingStates, hus, hug]
  have h3 : statusHas notRunningStates i = false := by
    simp [statusHas, hst, notRunningStates, stoppedOrStoppingStates, hus, hug, hup]
  have h4 : statusHas notStoppedStates i = false := by
    simp [statusHas, hst, notStoppedStates, runningOrPendingStates, hur, hup, hug]
  have hnotmem : ∀ states, statusHas states i = false →
      i ∉ l.filter (statusHas states) := by
    intro states hfalse hmem
    have htrue := (List.mem_filter.mp hmem).2
    rw [hfalse] at htrue
    exact Bool.false_ne_true htrue
  have hrun := MachinesRunning_ok env infraID l hl hs hn
  refine ⟨h1, h2, h3, h4, hnotmem _ h1, hnotmem _ h2, hnotmem _ h3, hnotmem _ h4,
    hrun, ?_⟩
  intro hothers
  have hnil : l.filter (statusHas notRunningStates) = [] := by
    refine List.filter_eq_nil_iff.mpr (fun j hj => ?_)
    by_cases hji : j = i
    · subst hji
      simp [h3]
    · simp [hothers j hj hji]
  rw [hrun, hnil]
  rfl

/-- Environment for the C4 witness: the unknown-status instance "w-a" next
to a running instance "w-b". -/
def c4WitnessEnv : IBMCloudEnv :=
  ⟨.ok [⟨some "w-a", some "id-wa", some "weird"⟩,
        ⟨some "w-b", some "id-wb", some "running"⟩], fun _ _ => none⟩

/-- C4 witness: with an unknown-status instance next to a running one,
`MachinesRunning` still reports full convergence with no stragglers. -/
theorem unknown_status_silently_excluded_witness :
    MachinesRunning none c4WitnessEnv "w" = .ok ⟨true, ⟨false, []⟩, none⟩ :=
  (unknown_status_silently_excluded c4WitnessEnv "w"
      [⟨some "w-a", some "id-wa", some "weird"⟩,
       ⟨some "w-b", some "id-wb", some "running"⟩]
      ⟨some "w-a", some "id-wa", some "weird"⟩ "weird"
      (by decide) (by decide) (by decide) (by decide) (by decide)
      (by decide)).2.2.2.2.2.2.2.2.2 (by decide)

/-- C5 (amended): when the per-instance provider action fails during
`StopInstances` or `StartInstances`, the whole operation fails with a
single wrapped error and no action is issued for the instances after the
failing one; `StartInstances`' error identifies the failing instance by
name, whereas `StopInstances`' error only wraps the underlying failure with
a fixed message and does not name the failing instance. -/
theorem instance_action_failure_aborts (act : String → Option String)
    (pre : List GoInstance) (b : GoInstance) (post : List GoInstance) (e : String)
    (hpre : ∀ i ∈ pre, i.id.isSome = true ∧ act (idOf i) = none)
    (hbid : b.id.isSome = true) (hbn : b.name.isSome = true)
    (hact : act (idOf b) = some e) :
    StopInstances act (pre ++ b :: post) =
      (pre.map idOf ++ [idOf b],
        .err ("failed to create stop instance action: " ++ e)) ∧
    StartInstances act (pre ++ b :: post) =
      (pre.map idOf ++ [idOf b],
        .err ("failed to create start instance action for instance \""
          ++ nameOf b ++ "\": " ++ e)) := by
  induction pre with
  | nil =>
    obtain ⟨bid, hb⟩ := Option.isSome_iff_exists.mp hbid
    obtain ⟨bn, hbname⟩ := Option.isSome_iff_exists.mp hbn
    rw [idOf, hb, Option.getD_some] at hact
    constructor
    · simp [StopInstances, hb, hact, idOf]
    · simp [StartInstances, hb, hact, hbname, idOf, nameOf]
  | cons i pre ih =>
    obtain ⟨hiid, hiact⟩ := hpre i (List.mem_cons_self i pre)
    obtain ⟨iid, hid⟩ := Option.isSome_iff_exists.mp hiid
    rw [idOf, hid, Option.getD_some] at hiact
    have hrest := ih (fun j hj => hpre j (List.mem_cons_of_mem i hj))
    constructor
    · simp [StopInstances, hid, hiact, hrest.1, idOf]
    · simp [StartInstances, hid, hiact, hrest.2, idOf]

/-- Provider action oracle for the C5 inputs: the action on instance ID
"id-2" fails with "rate limited", all others succeed. -/
def c5Act : String → Option String :=
  fun iid => if iid == "id-2" then some "rate limited" else none

/-- The three targeted instances of the C5 inputs; the action fails on the
second. -/
def c5Instances : List GoInstance :=
  [⟨some "inst-1", some "id-1", some "running"⟩,
   ⟨some "inst-2", some "id-2", some "running"⟩,
   ⟨some "inst-3", some "id-3", some "running"⟩]

/-- C5 counterexample: `StopInstances` failing on the second of three
instances returns the error "failed to create stop instance action: rate
limited", which contains neither the failing instance's name "inst-2" nor
its ID "id-2" — the error does not identify the failing instance (the
third instance is indeed not acted on: only "id-1" and "id-2" received
action calls). -/
theorem stopInstances_error_names_no_instance :
    StopInstances c5Act c5Instances =
      (["id-1", "id-2"], .err "failed to create stop instance action: rate limited") ∧
    goContains "failed to create stop instance action: rate limited" "inst-2" = false ∧
    goContains "failed to create stop instance action: rate limited" "id-2" = false := by
  decide

/-- C5 witness: on the three concrete instances with the action failing on
the second, `StartInstances` stops after the second instance and its error
names that instance. -/
theorem instance_action_failure_aborts_witness :
    StartInstances c5Act c5Instances =
      (["id-1", "id-2"],
        .err "failed to create start instance action for instance \"inst-2\": rate limited") :=
  (instance_action_failure_aborts c5Act
      [⟨some "inst-1", some "id-1", some "running"⟩]
      ⟨some "inst-2", some "id-2", some "running"⟩
      [⟨some "inst-3", some "id-3", some "running"⟩]
      "rate limited" (by decide) (by decide) (by decide) (by decide)).2

/-- Does a region iteration of `GetVPC` fail to find the VPC while letting
the loop continue: no `SetServiceURL` error, and either a lookup error with
status 404 or a nil VPC with nil error? -/
def regionMisses (x : RegionLookup) : Bool :=
  x.setURLErr == none &&
    ((x.resp.errMsg.isSome && x.resp.statusCode == 404) ||
     (x.resp.errMsg == none && x.resp.value == none))

theorem getVPCLoop_misses (misses : List RegionLookup)
    (hm : ∀ x ∈ misses, regionMisses x = true) :
    getVPCLoop misses = (none, some .vpcNotFound) := by
  induction misses with
  | nil => rfl
  | cons x xs ih =>
    have hx := hm x (List.mem_cons_self x xs)
    have hxs := ih (fun y hy => hm y (List.mem_cons_of_mem x hy))
    simp only [regionMisses, Bool.and_eq_true, Bool.or_eq_true, beq_iff_eq,
      Option.isSome_iff_exists] at hx
    obtain ⟨hurl, hcase⟩ := hx
    rcases hcase with ⟨⟨m, hmsg⟩, hcode⟩ | ⟨hmsg, hval⟩
    · simp [getVPCLoop, hurl, hmsg, hcode, hxs]
    · simp [getVPCLoop, hurl, hmsg, hval, hxs]

theorem getVPCLoop_first_failure (misses : List RegionLookup) (r : RegionLookup)
    (rest : List RegionLookup) (e : String)
    (hm : ∀ x ∈ misses, regionMisses x = true)
    (hr1 : r.setURLErr = none) (hr2 : r.resp.errMsg = some e)
    (hr3 : r.resp.statusCode ≠ 404) :
    getVPCLoop (misses ++ r :: rest) = (none, some (.providerError e)) := by
  induction misses with
  | nil => simp [getVPCLoop, hr1, hr2, hr3]
  | cons x xs ih =>
    have hx := hm x (List.mem_cons_self x xs)
    have hxs := ih (fun y hy => hm y (List.mem_cons_of_mem x hy))
    simp only [regionMisses, Bool.and_eq_true, Bool.or_eq_true, beq_iff_eq,
      Option.isSome_iff_exists] at hx
    obtain ⟨hurl, hcase⟩ := hx
    rcases hcase with ⟨⟨m, hmsg⟩, hcode⟩ | ⟨hmsg, hval⟩
    · simp [getVPCLoop, hurl, hmsg, hcode, hxs]
    · simp [getVPCLoop, hurl, hmsg, hval, hxs]

/-- C8: `GetSubnet` returns the typed `*VPCResourceNotFoundError` exactly
when the provider responded with HTTP 404; `GetVPC` returns the typed
not-found error when every region's lookup misses (a 404 failure or a nil
VPC with nil error), and a non-404 provider failure reached by the loop is
returned as an ordinary error instead. -/
theorem notFound_typed_errors (resp : VPCCallResponse)
    (misses : List RegionLookup) (r : RegionLookup) (rest : List RegionLookup)
    (e : String)
    (hm : ∀ x ∈ misses, regionMisses x = true)
    (hr1 : r.setURLErr = none) (hr2 : r.resp.errMsg = some e)
    (hr3 : r.resp.statusCode ≠ 404) :
    ((GetSubnet resp).2 = some .vpcNotFound ↔ resp.statusCode = 404) ∧
    GetVPC (.ok misses) = (none, some .vpcNotFound) ∧
    GetVPC (.ok (misses ++ r :: rest)) = (none, some (.providerError e)) := by
  refine ⟨?_, ?_, ?_⟩
  · by_cases h404 : resp.statusCode = 404
    · simp [GetSubnet, h404]
    · cases hmsg : resp.errMsg <;> simp [GetSubnet, h404, hmsg]
  · simpa [GetVPC] using getVPCLoop_misses misses hm
  · simpa [GetVPC] using getVPCLoop_first_failure misses r rest e hm hr1 hr2 hr3

/-- Region list for the C8 witness: one region whose lookup 404s. -/
def c8Misses : List RegionLookup := [⟨none, ⟨404, none, some "not found"⟩⟩]

/-- Failing region for the C8 witness: a 500-level provider failure. -/
def c8BadRegion : RegionLookup := ⟨none, ⟨500, none, some "server error"⟩⟩

/-- C8 witness: with one 404-missing region, `GetVPC` returns the typed
not-found error. -/
theorem notFound_typed_errors_witness :
    GetVPC (.ok c8Misses) = (none, some .vpcNotFound) :=
  (notFound_typed_errors ⟨404, none, some "nf"⟩ c8Misses c8BadRegion [] "server error"
      (by decide) (by decide) (by decide) (by decide)).2.1

/-- C9: the caller's context does not influence `GetCISInstance` at all —
the context derived by `context.WithTimeout` is discarded (bound to the
blank identifier) and the SDK call is issued without a context — so with an
already-cancelled caller context the call still completes and returns its
result instead of surfacing deadline exceeded. -/
theorem cis_call_ignores_context :
    (∀ ca cb : GoContext, ∀ o : Except String String,
      GetCISInstance ca o = GetCISInstance cb o) ∧
    GetCISInstance ⟨true⟩ (.ok "cis-instance") = .ok "cis-instance" :=
  ⟨fun _ _ _ => rfl, rfl⟩

theorem goContains_empty_sub (s : String) : goContains s "" = true := by
  rw [goContains]
  show containsAux s.toList [] = true
  cases s.toList with
  | nil => rfl
  | cons h t => rfl

theorem filterByName_shape (infraID : String) (l : List GoInstance) :
    (filterByName infraID l =
        .ok (l.filter (fun i => goContains (nameOf i) infraID)) ∧
      ∀ i ∈ l, i.name.isSome = true) ∨
    (filterByName infraID l = .panic ∧ ¬(∀ i ∈ l, i.name.isSome = true)) := by
  induction l with
  | nil => exact .inl ⟨rfl, by simp⟩
  | cons i rest ih =>
    cases hn : i.name with
    | none =>
      refine .inr ⟨by simp [filterByName, hn], fun hall => ?_⟩
      have := hall i (List.mem_cons_self i rest)
      rw [hn] at this
      simp at this
    | some n =>
      rcases ih with ⟨hok, hall⟩ | ⟨hp, hnall⟩
      · refine .inl ⟨?_, ?_⟩
        · simp [filterByName, hn, hok, List.filter_cons, nameOf]
        · intro j hj
          rcases List.mem_cons.mp hj with rfl | hj2
          · simp [hn]
          · exact hall j hj2
      · exact .inr ⟨by simp [filterByName, hn, hp],
          fun hall => hnall (fun j hj => hall j (List.mem_cons_of_mem i hj))⟩

theorem filterByStatus_shape (states : List String) (l : List GoInstance) :
    (filterByStatus states l = .ok (l.filter (statusHas states)) ∧
      ∀ i ∈ l, i.status.isSome = true) ∨
    (filterByStatus states l = .panic ∧ ¬(∀ i ∈ l, i.status.isSome = true)) := by
  induction l with
  | nil => exact .inl ⟨rfl, by simp⟩
  | cons i rest ih =>
    cases hs : i.status with
    | none =>
      refine .inr ⟨by simp [filterByStatus, hs], fun hall => ?_⟩
      have := hall i (List.mem_cons_self i rest)
      rw [hs] at this
      simp at this
    | some s =>
      rcases ih with ⟨hok, hall⟩ | ⟨hp, hnall⟩
      · refine .inl ⟨?_, ?_⟩
        · simp [filterByStatus, hs, hok, List.filter_cons, statusHas]
        · intro j hj
          rcases List.mem_cons.mp hj with rfl | hj2
          · simp [hs]
          · exact hall j hj2
      · exact .inr ⟨by simp [filterByStatus, hs, hp],
          fun hall => hnall (fun j hj => hall j (List.mem_cons_of_mem i hj))⟩

theorem instanceNames_isSome_iff (l : List GoInstance) :
    (instanceNames l).isSome = true ↔ ∀ i ∈ l, i.name.isSome = true := by
  induction l with
  | nil => simp [instanceNames]
  | cons i rest ih =>
    cases hn : i.name with
    | none => simp [instanceNames, hn]
    | some n =>
      cases hrec : instanceNames rest with
      | none =>
        simp only [instanceNames, hn, hrec]
        simp only [hrec] at ih
        simp [List.forall_mem_cons, ← ih]
      | some tail =>
        simp only [instanceNames, hn, hrec]
        simp only [hrec] at ih
        simp [List.forall_mem_cons, hn, ← ih]

theorem stopInstances_success_shape (l : List GoInstance) :
    (StopInstances (fun _ => none) l = (l.map idOf, .ok ()) ∧
      ∀ i ∈ l, i.id.isSome = true) ∨
    ((StopInstances (fun _ => none) l).2 = .panic ∧
      ¬(∀ i ∈ l, i.id.isSome = true)) := by
  induction l with
  | nil => exact .inl ⟨rfl, by simp⟩
  | cons i rest ih =>
    cases hid : i.id with
    | none =>
      refine .inr ⟨by simp [StopInstances, hid], fun hall => ?_⟩
      have := hall i (List.mem_cons_self i rest)
      rw [hid] at this
      simp at this
    | some iid =>
      rcases ih with ⟨hok, hall⟩ | ⟨hp, hnall⟩
      · refine .inl ⟨?_, ?_⟩
        · simp [StopInstances, hid, hok, idOf]
        · intro j hj
          rcases List.mem_cons.mp hj with rfl | hj2
          · simp [hid]
          · exact hall j hj2
      · refine .inr ⟨?_, fun hall => hnall (fun j hj => hall j (List.mem_cons_of_mem i hj))⟩
        simp only [StopInstances, hid]
        exact hp

theorem startInstances_success_shape (l : List GoInstance) :
    (StartInstances (fun _ => none) l = (l.map idOf, .ok ()) ∧
      ∀ i ∈ l, i.id.isSome = true) ∨
    ((StartInstances (fun _ => none) l).2 = .panic ∧
      ¬(∀ i ∈ l, i.id.isSome = true)) := by
  induction l with
  | nil => exact .inl ⟨rfl, by simp⟩
  | cons i rest ih =>
    cases hid : i.id with
    | none =>
      refine .inr ⟨by simp [StartInstances, hid], fun hall => ?_⟩
      have := hall i (List.mem_cons_self i rest)
      rw [hid] at this
      simp at this
    | some iid =>
      rcases ih with ⟨hok, hall⟩ | ⟨hp, hnall⟩
      · refine .inl ⟨?_, ?_⟩
        · simp [StartInstances, hid, hok, idOf]
        · intro j hj
          rcases List.mem_cons.mp hj with rfl | hj2
          · simp [hid]
          · exact hall j hj2
      · refine .inr ⟨?_, fun hall => hnall (fun j hj => hall j (List.mem_cons_of_mem i hj))⟩
        simp only [StartInstances, hid]
        exact hp

/-- C10: the functions that unconditionally dereference the instances'
`Status`, `Name` and `ID` pointers never panic exactly when every listed
instance carries all three fields non-nil: with an always-succeeding action
oracle (and the empty infrastructure ID, so the name filter keeps every
instance), `getIBMCloudClusterInstances`, `ibmCloudInstanceNames`,
`StopInstances` and `StartInstances` are all panic-free on the list iff the
precondition holds. -/
theorem pointer_deref_safety (l : List GoInstance) (states : List String) :
    (∀ i ∈ l, i.status.isSome = true ∧ i.name.isSome = true ∧ i.id.isSome = true)
    ↔
    ((getIBMCloudClusterInstances ⟨.ok l, fun _ _ => none⟩ "" states).isPanic = false ∧
     (ibmCloudInstanceNames l).isSome = true ∧
     ((StopInstances (fun _ => none) l).2).isPanic = false ∧
     ((StartInstances (fun _ => none) l).2).isPanic = false) := by
  have hfnil : ∀ (h : ∀ i ∈ l, i.name.isSome = true),
      filterByName "" l = .ok l := by
    intro h
    rw [filterByName_ok "" l h]
    congr 1
    refine List.filter_eq_self.mpr (fun i _ => ?_)
    exact goContains_empty_sub (nameOf i)
  constructor
  · intro h
    have hnames : ∀ i ∈ l, i.name.isSome = true := fun i hi => (h i hi).2.1
    have hstatus : ∀ i ∈ l, i.status.isSome = true := fun i hi => (h i hi).1
    have hids : ∀ i ∈ l, i.id.isSome = true := fun i hi => (h i hi).2.2
    refine ⟨?_, ?_, ?_, ?_⟩
    · have : getIBMCloudClusterInstances ⟨.ok l, fun _ _ => none⟩ "" states =
          .ok (l.filter (statusHas states)) := by
        simp only [getIBMCloudClusterInstances, GetVPCInstances, hfnil hnames,
          filterByStatus_ok states l hstatus]
      rw [this]
      rfl
    · cases hin : instanceNames l with
      | none =>
        have hsome := (instanceNames_isSome_iff l).mpr hnames
        rw [hin] at hsome
        simp at hsome
      | some names => simp [ibmCloudInstanceNames, hin]
    · rcases stopInstances_success_shape l with ⟨hok, _⟩ | ⟨_, hnot⟩
      · rw [hok]; rfl
      · exact absurd hids hnot
    · rcases startInstances_success_shape l with ⟨hok, _⟩ | ⟨_, hnot⟩
      · rw [hok]; rfl
      · exact absurd hids hnot
  · rintro ⟨hget, hnames, hstop, hstart⟩
    have hname : ∀ i ∈ l, i.name.isSome = true := by
      rcases filterByName_shape "" l with ⟨_, hall⟩ | ⟨hp, _⟩
      · exact hall
      · rw [show getIBMCloudClusterInstances ⟨.ok l, fun _ _ => none⟩ "" states =
            .panic by simp [getIBMCloudClusterInstances, GetVPCInstances, hp]] at hget
        simp [GoResult.isPanic] at hget
    have hstatus : ∀ i ∈ l, i.status.isSome = true := by
      rcases filterByStatus_shape states l with ⟨_, hall⟩ | ⟨hp, _⟩
      · exact hall
      · rw [show getIBMCloudClusterInstances ⟨.ok l, fun _ _ => none⟩ "" states =
            .panic by simp [getIBMCloudClusterInstances, GetVPCInstances,
              hfnil hname, hp]] at hget
        simp [GoResult.isPanic] at hget
    have hids : ∀ i ∈ l, i.id.isSome = true := by
      rcases stopInstances_success_shape l with ⟨_, hall⟩ | ⟨hp, _⟩
      · exact hall
      · rw [hp] at hstop
        simp [GoResult.isPanic] at hstop
    exact fun i hi => ⟨hstatus i hi, hname i hi, hids i hi⟩

end Hive
